import Mathlib

/-
Verification development for the kernel-heap allocator in src/src/kheap.c.

Modelling conventions:
* The code is 32-bit (`size_t` arithmetic, pointer masks such as 0xFFFFF000):
  machine words are Nat together with explicit reduction modulo 2^32
  (`add32`, `sub32`); `ssize_t` values are read through `toSSize`.
* Memory is modelled at struct granularity: two association lists map
  addresses to the header / footer structs written there.  Reading an
  address that was never written yields a zeroed struct (in particular its
  magic field is 0, never HEAP_MAGIC).  Overlapping structs written at
  distinct addresses are kept as distinct entries.
* kheap.h, common.h and sorted_array.c are not part of src/; the constants
  HEAP_MAGIC, HEAP_FREE_LIST_SIZE, the struct sizes and the sorted-array
  container are modelled from the spec (see the doc comments below).
* kalloc_heap in the source retries by direct recursion after growing the
  heap; the embedding makes that recursion structural on an explicit fuel
  argument, returning `none` when the fuel runs out (i.e. when the source
  would still be recursing after that many grow-and-retry rounds).
-/

/-- 2^32: modulus of 32-bit size_t / pointer arithmetic. -/
def SIZE_MOD : Nat := 4294967296

/-- the page size, hard-coded as 0x1000 throughout kheap.c. -/
def PAGE_SIZE : Nat := 4096

/-- Modelled from the spec: the validity marker (magic value) defined in the
missing kheap.h; any fixed nonzero constant serves, since uninitialized
memory reads as zero in the model. -/
def HEAP_MAGIC : Nat := 0x123890AB

/-- Modelled from the spec: sizeof(struct header) from the missing kheap.h
(magic marker, allocated flag, size; 12 bytes on the 32-bit target). -/
def sizeofHeader : Nat := 12

/-- Modelled from the spec: sizeof(struct footer) from the missing kheap.h
(magic marker, back-pointer to the header; 8 bytes on the 32-bit target). -/
def sizeofFooter : Nat := 8

/-- Modelled from the spec: sizeof(struct sorted_array) from the missing
sorted_array.h (storage pointer, element count, capacity, comparator). -/
def sizeofSortedArray : Nat := 16

/-- sizeof(void *) on the 32-bit target. -/
def sizeofPtr : Nat := 4

/-- Modelled from the spec: capacity of the embedded free list, from the
missing kheap.h. -/
def HEAP_FREE_LIST_SIZE : Nat := 32

/-- 32-bit addition: a + b as size_t. -/
def add32 (a b : Nat) : Nat := (a + b) % SIZE_MOD

/-- 32-bit subtraction: a - b as size_t (wraps on underflow). -/
def sub32 (a b : Nat) : Nat := (a % SIZE_MOD + (SIZE_MOD - b % SIZE_MOD)) % SIZE_MOD

/-- reinterpret a 32-bit unsigned value as ssize_t (two's complement). -/
def toSSize (n : Nat) : Int :=
  if n % SIZE_MOD < 2147483648 then ((n % SIZE_MOD : Nat) : Int)
  else ((n % SIZE_MOD : Nat) : Int) - 4294967296

/-- convert the s8int returned by heap_resize to size_t, as the assignment
`size_t new_length = heap_resize(...)` in kfree_heap does (sign-extension
then truncation: -1 becomes 0xFFFFFFFF). -/
def s8ToSize (i : Int) : Nat := (i % (4294967296 : Int)).toNat

/-- struct header from kheap.h (modelled from the spec): magic marker,
allocated flag, total block size including header and footer. -/
structure Header where
  magic : Nat
  allocated : Bool
  size : Nat
deriving DecidableEq

/-- struct footer from kheap.h (modelled from the spec): magic marker and
the address of the owning header. -/
structure Footer where
  magic : Nat
  header : Nat
deriving DecidableEq

/-- metadata memory: headers and footers indexed by their addresses. -/
structure Mem where
  headers : List (Nat × Header)
  footers : List (Nat × Footer)
deriving DecidableEq

/-- struct heap: bounds of the managed region plus the free list (the list
holds header addresses, kept ascending by block size). -/
structure Heap where
  start_address : Nat
  end_address : Nat
  max_address : Nat
  free_list : List Nat
deriving DecidableEq

/-- a heap together with the metadata memory it manipulates. -/
structure State where
  mem : Mem
  heap : Heap
deriving DecidableEq

/-- association-list lookup used by both metadata maps. -/
def alookup {α : Type} (l : List (Nat × α)) (a : Nat) : Option α :=
  (l.find? (fun q => q.1 = a)).map Prod.snd

/-- association-list overwrite used by both metadata maps. -/
def awrite {α : Type} (l : List (Nat × α)) (a : Nat) (v : α) : List (Nat × α) :=
  (a, v) :: l.filter (fun q => q.1 ≠ a)

/-- read the header struct at an address (zeroed if never written). -/
def getHeader (m : Mem) (a : Nat) : Header :=
  (alookup m.headers a).getD ⟨0, false, 0⟩

/-- read the footer struct at an address (zeroed if never written). -/
def getFooter (m : Mem) (a : Nat) : Footer :=
  (alookup m.footers a).getD ⟨0, 0⟩

/-- write a header struct at an address. -/
def writeHeader (m : Mem) (a : Nat) (v : Header) : Mem :=
  ⟨awrite m.headers a v, m.footers⟩

/-- write a footer struct at an address. -/
def writeFooter (m : Mem) (a : Nat) (v : Footer) : Mem :=
  ⟨m.headers, awrite m.footers a v⟩

/-- align: `u.integer &= PAGE_MASK` with PAGE_MASK = 0xFFFFF000 on the
32-bit target, i.e. clear the low 12 bits of the 32-bit value. -/
def align (p : Nat) : Nat := p % SIZE_MOD / PAGE_SIZE * PAGE_SIZE

/-- header_less_than: a < b iff the size in a's header is less than the
size in b's header (the comparator handed to the sorted array). -/
def header_less_than (m : Mem) (a b : Nat) : Bool :=
  (getHeader m a).size < (getHeader m b).size

/-- Modelled from the spec: sorted_array_insert from the missing
sorted_array.c; skips the entries less than the new item under the
supplied comparator and inserts before the first one that is not. -/
def sorted_array_insert (m : Mem) (item : Nat) : List Nat → List Nat
  | [] => [item]
  | b :: t => if header_less_than m b item then b :: sorted_array_insert m item t
              else item :: b :: t

/-- Modelled from the spec: sorted_array_lookup from the missing
sorted_array.c (indexed access into the free list). -/
def sorted_array_lookup (l : List Nat) (i : Nat) : Nat := l.getD i 0

/-- Modelled from the spec: sorted_array_remove from the missing
sorted_array.c (remove-by-index; out-of-range indices remove nothing). -/
def sorted_array_remove (l : List Nat) (i : Nat) : List Nat := l.eraseIdx i

/-- linear scan for the index of an address in the free list, as the while
loops in kfree_heap perform; returns the list length when absent. -/
def idxOf (x : Nat) : List Nat → Nat
  | [] => 0
  | b :: t => if b = x then 0 else idxOf x t + 1

/-- heap_resize (kheap.c lines 90-132): page-align the requested size
upward, refuse an expansion past max_address with -1, otherwise set
end_address = start_address + new_size and return 0. -/
def heap_resize (new_size0 : Nat) (heap : Heap) : Int × Heap :=
  let new_size := if align new_size0 ≠ new_size0 then add32 (align new_size0) PAGE_SIZE
                  else new_size0
  if new_size < sub32 heap.end_address heap.start_address then
    (0, { heap with end_address := add32 heap.start_address new_size })
  else if new_size > sub32 heap.end_address heap.start_address then
    if add32 heap.start_address new_size > heap.max_address then (-1, heap)
    else (0, { heap with end_address := add32 heap.start_address new_size })
  else
    (0, { heap with end_address := add32 heap.start_address new_size })

/-- loop of find_smallest_hole over the free list; i is the running index.
For a page-aligned request the source computes the padding only when
`(location + sizeof(struct header)) & (0xFFFFF000 != 0)` is nonzero; the
comparison inside the parentheses collapses to 1, so the test is the low
bit (parity) of location + sizeof(struct header). -/
def find_loop (size : Nat) (page_align : Bool) (m : Mem) : List Nat → Nat → Option Nat
  | [], _ => none
  | a :: t, i =>
    if page_align then
      let location := a
      let offset : Int :=
        if (add32 location sizeofHeader) % 2 = 1 then
          ((PAGE_SIZE : Nat) : Int) - ((add32 location sizeofHeader) % PAGE_SIZE : Nat)
        else 0
      let hole_size : Int := toSSize (getHeader m a).size - offset
      if hole_size ≥ toSSize size then some i else find_loop size page_align m t (i + 1)
    else
      if (getHeader m a).size ≥ size then some i
      else find_loop size page_align m t (i + 1)

/-- find_smallest_hole (kheap.c lines 139-184): first free-list entry that
fits (with the parity-gated alignment padding above); -1 if none does. -/
def find_smallest_hole (size : Nat) (page_align : Bool) (st : State) : Int :=
  match find_loop size page_align st.mem st.heap.free_list 0 with
  | some i => (i : Int)
  | none => -1

/-- add_hole (kheap.c lines 187-209): write a free header at start with
size end - start and insert it into the free list.  The footer writes are
commented out in the source, so no footer is written. -/
def add_hole (start end_ : Nat) (st : State) : State :=
  let m := writeHeader st.mem start ⟨HEAP_MAGIC, false, sub32 end_ start⟩
  ⟨m, { st.heap with free_list := sorted_array_insert m start st.heap.free_list }⟩

/-- heap_create (kheap.c lines 47-86): place the heap struct and free-list
storage at start, move the data start past them, page-align it upward if
needed, record the bounds and create the initial hole. -/
def heap_create (start end_ max : Nat) : State :=
  let start1 := start + sizeofSortedArray + sizeofPtr * HEAP_FREE_LIST_SIZE
  let start2 := if align start1 ≠ start1 then add32 (align start1) PAGE_SIZE else start1
  let heap : Heap :=
    { start_address := start2, end_address := end_, max_address := max, free_list := [] }
  add_hole start2 end_ ⟨⟨[], []⟩, heap⟩

/-- size_t -1, the sentinel `idx` of the endmost-header scan in
kalloc_heap's grow branch. -/
def NEG1 : Nat := 4294967295

/-- the endmost-header scan of kalloc_heap (lines 244-257): index and
address of the free-list entry with the highest address, starting from
idx = (size_t)-1 and value = 0. -/
def endmost_loop : List Nat → Nat → Nat → Nat → Nat × Nat
  | [], _, idx, value => (idx, value)
  | a :: t, i, idx, value =>
    if a > value then endmost_loop t (i + 1) i a else endmost_loop t (i + 1) idx value

/-- the grow arm of kalloc_heap (lines 234-281): resize the heap (the
heap_resize return value is discarded, as in the source, despite its
WARN_UNUSED declaration), then extend the endmost free header by the added
length and rewrite its footer, or create a fresh terminal hole when the
free list is empty.  Both footer addresses here use `sizeof(footer)` in
the source (lines 266 and 277) - the sizeof of the pointer variable, 4
bytes - not sizeof(struct footer). -/
def growStep (new_size : Nat) (st : State) : State :=
  let old_length := sub32 st.heap.end_address st.heap.start_address
  let old_end_address := st.heap.end_address
  let heap1 := (heap_resize (add32 old_length new_size) st.heap).2
  let new_length := sub32 heap1.end_address heap1.start_address
  let idx := (endmost_loop heap1.free_list 0 NEG1 0).1
  if idx = NEG1 then
    let hsize := sub32 new_length old_length
    let m1 := writeHeader st.mem old_end_address ⟨HEAP_MAGIC, false, hsize⟩
    let m2 := writeFooter m1 (sub32 (add32 old_end_address hsize) sizeofPtr)
                ⟨HEAP_MAGIC, old_end_address⟩
    ⟨m2, { heap1 with free_list := sorted_array_insert m2 old_end_address heap1.free_list }⟩
  else
    let ha := sorted_array_lookup heap1.free_list idx
    let sz := add32 (getHeader st.mem ha).size (sub32 new_length old_length)
    let m1 := writeHeader st.mem ha { getHeader st.mem ha with size := sz }
    let m2 := writeFooter m1 (sub32 (add32 ha sz) sizeofPtr) ⟨HEAP_MAGIC, ha⟩
    ⟨m2, heap1⟩

/-- tail of kalloc_heap from the block-header write on (lines 320-349):
mark the chosen span allocated, write its footer, carve a trailing hole
when bytes remain (its footer only when that footer lies below
end_address) and return the payload address. -/
def kallocFinish (size new_size orig_hole_size orig_hole_pos : Nat) (st : State) :
    Nat × State :=
  let m1 := writeHeader st.mem orig_hole_pos ⟨HEAP_MAGIC, true, new_size⟩
  let m2 := writeFooter m1 (add32 (add32 orig_hole_pos sizeofHeader) size)
              ⟨HEAP_MAGIC, orig_hole_pos⟩
  if sub32 orig_hole_size new_size > 0 then
    let hole_header := add32 (add32 (add32 orig_hole_pos sizeofHeader) size) sizeofFooter
    let m3 := writeHeader m2 hole_header ⟨HEAP_MAGIC, false, sub32 orig_hole_size new_size⟩
    let hole_footer := sub32 (sub32 (add32 hole_header orig_hole_size) new_size) sizeofFooter
    let m4 := if hole_footer < st.heap.end_address then
                writeFooter m3 hole_footer ⟨HEAP_MAGIC, hole_header⟩
              else m3
    (add32 orig_hole_pos sizeofHeader,
     ⟨m4, { st.heap with free_list := sorted_array_insert m4 hole_header st.heap.free_list }⟩)
  else
    (add32 orig_hole_pos sizeofHeader, ⟨m2, st.heap⟩)

/-- body of kalloc_heap once a hole was found (lines 286-349): sliver
absorption, then either the page-alignment carve-out (the source guard is
`page_align && orig_hole_pos & 0xFFFFF000`, i.e. some bit of the 32-bit
address at position 12 or above is set, i.e. 0x1000 <= pos % 2^32) or
removal of the matched entry, then kallocFinish. -/
def kallocBody (size0 new_size0 : Nat) (page_align : Bool) (iterator : Nat) (st : State) :
    Nat × State :=
  let orig_hole_header := sorted_array_lookup st.heap.free_list iterator
  let orig_hole_pos := orig_hole_header
  let orig_hole_size := (getHeader st.mem orig_hole_header).size
  let absorb := sub32 orig_hole_size new_size0 < sizeofHeader + sizeofFooter
  let size := if absorb then add32 size0 (sub32 orig_hole_size new_size0) else size0
  let new_size := if absorb then orig_hole_size else new_size0
  if page_align = true ∧ PAGE_SIZE ≤ orig_hole_pos % SIZE_MOD then
    let hole_sz := sub32 (sub32 PAGE_SIZE (orig_hole_pos % PAGE_SIZE)) sizeofHeader
    let new_location := sub32 (sub32 (add32 orig_hole_pos PAGE_SIZE)
                          (orig_hole_pos % PAGE_SIZE)) sizeofHeader
    let m1 := writeHeader st.mem orig_hole_pos ⟨HEAP_MAGIC, false, hole_sz⟩
    let m2 := writeFooter m1 (sub32 new_location sizeofFooter) ⟨HEAP_MAGIC, orig_hole_pos⟩
    kallocFinish size new_size (sub32 orig_hole_size hole_sz) new_location ⟨m2, st.heap⟩
  else
    let heap1 := { st.heap with free_list := sorted_array_remove st.heap.free_list iterator }
    kallocFinish size new_size orig_hole_size orig_hole_pos ⟨st.mem, heap1⟩

/-- kalloc_heap (kheap.c lines 211-350), with the source's grow-and-retry
recursion made structural on a fuel argument: `none` means the fuel ran
out while the source would still be recursing. -/
def kalloc_heap : Nat → Nat → Bool → State → Option (Nat × State)
  | 0, _, _, _ => none
  | fuel + 1, size, page_align, st =>
    let new_size := add32 (add32 size sizeofHeader) sizeofFooter
    let iterator := find_smallest_hole new_size page_align st
    if iterator = -1 then
      kalloc_heap fuel size page_align (growStep new_size st)
    else
      some (kallocBody size new_size page_align iterator.toNat st)

/-- kfree_heap (kheap.c lines 352-443): no-op on null; otherwise mark the
block free (the magic sanity checks are commented out in the source),
coalesce backward and forward, contract the heap when the block ends at
end_address (the source stores heap_resize's status code into new_length),
and finally insert the header unless backward merging already indexed it. -/
def kfree_heap (p : Nat) (st : State) : State :=
  if p = 0 then st
  else
    let header0 := sub32 p sizeofHeader
    let footer0 := sub32 (add32 header0 (getHeader st.mem header0).size) sizeofFooter
    let m1 := writeHeader st.mem header0 { getHeader st.mem header0 with allocated := false }
    let test_footer := sub32 header0 sizeofFooter
    let s1 : Nat × Mem × Bool :=
      if (getFooter m1 test_footer).magic = HEAP_MAGIC ∧
         (getHeader m1 (getFooter m1 test_footer).header).allocated = false then
        let cache_size := (getHeader m1 header0).size
        let headerN := (getFooter m1 test_footer).header
        let m2 := writeFooter m1 footer0 { getFooter m1 footer0 with header := headerN }
        let m3 := writeHeader m2 headerN
                    { getHeader m2 headerN with
                        size := add32 (getHeader m2 headerN).size cache_size }
        (headerN, m3, false)
      else (header0, m1, true)
    let header1 := s1.1
    let m4 := s1.2.1
    let do_add := s1.2.2
    let test_header := add32 footer0 sizeofFooter
    let s2 : Nat × Mem × List Nat :=
      if (getHeader m4 test_header).magic = HEAP_MAGIC ∧
         (getHeader m4 test_header).allocated = false then
        let m5 := writeHeader m4 header1
                    { getHeader m4 header1 with
                        size := add32 (getHeader m4 header1).size
                                  (getHeader m4 test_header).size }
        let footer1 := sub32 (add32 test_header (getHeader m5 test_header).size) sizeofFooter
        let fl1 := sorted_array_remove st.heap.free_list (idxOf test_header st.heap.free_list)
        (footer1, m5, fl1)
      else (footer0, m4, st.heap.free_list)
    let footer2 := s2.1
    let m6 := s2.2.1
    let fl2 := s2.2.2
    let heapIn := { st.heap with free_list := fl2 }
    let s3 : Mem × List Nat × Heap :=
      if add32 footer2 sizeofFooter = heapIn.end_address then
        let old_length := sub32 heapIn.end_address heapIn.start_address
        let rr := heap_resize (sub32 header1 heapIn.start_address) heapIn
        let heap2 := rr.2
        let new_length := s8ToSize rr.1
        if sub32 (getHeader m6 header1).size (sub32 old_length new_length) > 0 then
          let m7 := writeHeader m6 header1
                      { getHeader m6 header1 with
                          size := sub32 (getHeader m6 header1).size
                                    (sub32 old_length new_length) }
          let footer3 := sub32 (add32 header1 (getHeader m7 header1).size) sizeofFooter
          let m8 := writeFooter m7 footer3 ⟨HEAP_MAGIC, header1⟩
          (m8, heap2.free_list, heap2)
        else
          let i := idxOf test_header heap2.free_list
          let fl3 := if i < heap2.free_list.length then sorted_array_remove heap2.free_list i
                     else heap2.free_list
          (m6, fl3, heap2)
      else (m6, fl2, heapIn)
    let m9 := s3.1
    let fl4 := s3.2.1
    let heap3 := s3.2.2
    let fl5 := if do_add then sorted_array_insert m9 header1 fl4 else fl4
    ⟨m9, { heap3 with free_list := fl5 }⟩

/-- sum of the header sizes indexed by the free list (total free bytes). -/
def totalFree (st : State) : Nat :=
  (st.heap.free_list.map (fun a => (getHeader st.mem a).size)).sum

/-- a heap over [0x1000, 0x3000) whose growth ceiling equals its end: no
growth is possible (data region [0x2000, 0x3000) after metadata). -/
def stMax : State := heap_create 0x1000 0x3000 0x3000

/-- a heap over [0x1000, 0x3000) with growth ceiling 0x10000 (data region
[0x2000, 0x3000) after metadata). -/
def st0c : State := heap_create 0x1000 0x3000 0x10000

/-- st0c after kalloc_heap(0xE0, 0): block A = [0x2000, 0x20F4), leftover
hole at 0x20F4. -/
def stA : State := ((kalloc_heap 1 0xE0 false st0c).getD (0, st0c)).2

/-- stA after kalloc_heap(0xE0, 0): block B = [0x20F4, 0x21E8), leftover
hole at 0x21E8. -/
def stB : State := ((kalloc_heap 1 0xE0 false stA).getD (0, stA)).2

/-- stB after kfree_heap on B's payload pointer 0x2100 (forward coalesce
with the tail hole, then the contraction branch runs). -/
def stC : State := kfree_heap 0x2100 stB

/-- stC after kfree_heap on A's payload pointer 0x200C. -/
def stD : State := kfree_heap 0x200C stC

/-- a bare heap state over [0x2000, 0x3000) with empty metadata and free
list, as heap_create hands to add_hole. -/
def stEmpty : State := ⟨⟨[], []⟩, ⟨0x2000, 0x3000, 0x10000, []⟩⟩

/-- stEmpty after add_hole(0x2000, 0x3000). -/
def st3 : State := add_hole 0x2000 0x3000 stEmpty

/-- a heap whose single allocated block at 0x2000 carries a corrupted
magic marker in both header and footer. -/
def st4 : State :=
  ⟨⟨[(0x2000, ⟨0xBAD0BAD, true, 0xF4⟩)], [(0x20EC, ⟨0xBAD0BAD, 0x2000⟩)]⟩,
   ⟨0x2000, 0x3000, 0x10000, []⟩⟩

/-- a heap whose single free hole sits at the even, non-page-aligned
address 0x1010 with size 0x100. -/
def st7 : State :=
  ⟨⟨[(0x1010, ⟨HEAP_MAGIC, false, 0x100⟩)], []⟩, ⟨0x1000, 0x3000, 0x10000, [0x1010]⟩⟩

/-- st0c after the page-aligned kalloc_heap(0xE0, 1) (used by the C6
witness; the returned pointer is 0x3000). -/
def stW : State := ((kalloc_heap 2 0xE0 true st0c).getD (0, st0c)).2

/-- well-formedness of a heap state: the data region starts at or after
the first page, is bounded by max_address below 2^31 (so 32-bit address
arithmetic cannot wrap), and every indexed hole lies inside the region. -/
def WF (st : State) : Prop :=
  0x1000 ≤ st.heap.start_address ∧
  st.heap.start_address ≤ st.heap.end_address ∧
  st.heap.end_address ≤ st.heap.max_address ∧
  st.heap.max_address < 2147483648 ∧
  ∀ a ∈ st.heap.free_list, 0x1000 ≤ a ∧ a + (getHeader st.mem a).size ≤ st.heap.end_address

instance (st : State) : Decidable (WF st) := by
  unfold WF
  infer_instance

theorem kalloc_stuck (size : Nat) (pa : Bool) (st : State)
    (hfind : find_smallest_hole (add32 (add32 size sizeofHeader) sizeofFooter) pa st = -1)
    (hfix : growStep (add32 (add32 size sizeofHeader) sizeofFooter) st = st) :
    ∀ fuel, kalloc_heap fuel size pa st = none := by
  intro fuel
  induction fuel with
  | zero => rfl
  | succ n ih =>
    simp only [kalloc_heap]
    rw [hfind]
    simp only [reduceIte]
    rw [hfix]
    exact ih

/-- C1: on a heap whose growth ceiling equals its current end, a request
that no hole satisfies never returns: kalloc_heap ignores heap_resize's
failure (despite WARN_UNUSED) and recurses forever, for every retry
bound, instead of returning a pointer or OutOfMemory. -/
theorem kalloc_heap_unbounded_recursion :
    ∀ fuel, kalloc_heap fuel 0x2000 false stMax = none := by
  intro fuel
  cases fuel with
  | zero => rfl
  | succ n =>
    have hstep := kalloc_stuck 0x2000 false
      (growStep (add32 (add32 0x2000 sizeofHeader) sizeofFooter) stMax)
      (by decide) (by decide)
    simp only [kalloc_heap]
    rw [show find_smallest_hole (add32 (add32 0x2000 sizeofHeader) sizeofFooter) false stMax
          = -1 from by decide]
    simp only [reduceIte]
    exact hstep n

/-- C2: a request exceeding what maximal growth can provide does not fail
with OutOfMemory: the heap_resize failure status is discarded and
kalloc_heap never returns at all (none for every retry bound), so no
OutOfMemory result is ever produced. -/
theorem kalloc_heap_no_oom_on_growth_failure :
    ∀ fuel, kalloc_heap fuel 0x3000 false stMax = none := by
  intro fuel
  cases fuel with
  | zero => rfl
  | succ n =>
    have hstep := kalloc_stuck 0x3000 false
      (growStep (add32 (add32 0x3000 sizeofHeader) sizeofFooter) stMax)
      (by decide) (by decide)
    simp only [kalloc_heap]
    rw [show find_smallest_hole (add32 (add32 0x3000 sizeofHeader) sizeofFooter) false stMax
          = -1 from by decide]
    simp only [reduceIte]
    exact hstep n

/-- C3: add_hole(0x2000, 0x3000) writes the free header with size
end - start at start and indexes it, but writes no footer at all (the
footer code is commented out in the source), so the footer half of
invariant I1 fails. -/
theorem add_hole_writes_no_footer :
    getHeader st3.mem 0x2000 = ⟨HEAP_MAGIC, false, 0x1000⟩ ∧
    st3.heap.free_list = [0x2000] ∧
    st3.mem.footers = [] := by
  decide

/-- C4: kfree_heap performs no magic validation (the asserts are commented
out): on a block whose header and footer magic are 0xBAD0BAD, it proceeds
to mark the header free and insert it into the free list instead of
aborting. -/
theorem kfree_heap_ignores_bad_magic :
    0xBAD0BAD ≠ HEAP_MAGIC ∧
    getHeader (kfree_heap 0x200C st4).mem 0x2000 = ⟨0xBAD0BAD, false, 0xF4⟩ ∧
    (kfree_heap 0x200C st4).heap.free_list = [0x2000] := by
  decide

/-- C5: after create, two allocations and two frees (all through the
public entry points), the region scan finds two consecutive blocks that
are both free: the block at 0x2000 (free, size 0xF4) is immediately
followed at 0x20F4 by another free block, both with valid magic, inside
[start_address, end_address) — invariant I3 is violated. -/
theorem adjacent_free_blocks_reachable :
    stD.heap.start_address = 0x2000 ∧
    stD.heap.end_address = 0x3000 ∧
    getHeader stD.mem 0x2000 = ⟨HEAP_MAGIC, false, 0xF4⟩ ∧
    getHeader stD.mem (0x2000 + (getHeader stD.mem 0x2000).size) = ⟨HEAP_MAGIC, false, 0⟩ ∧
    0x2000 + (getHeader stD.mem 0x2000).size < stD.heap.end_address := by
  decide

/-- C7: find_smallest_hole with page_align = 1 accepts the hole at 0x1010
(returning index 0) although the payload start 0x101C is not page-aligned
and header.size minus the claim's padding (0x1000 - 0x1C) is far below
the requested 0x100: the source gates the padding on the parity of
location + sizeof(struct header) instead of its page offset. -/
theorem find_smallest_hole_ignores_padding :
    find_smallest_hole 0x100 true st7 = 0 ∧
    (0x1010 + sizeofHeader) % PAGE_SIZE ≠ 0 ∧
    (getHeader st7.mem 0x1010).size < 0x100 + (PAGE_SIZE - (0x1010 + sizeofHeader) % PAGE_SIZE) := by
  decide

/-- C8: freeing block B (payload 0x2100) merges it with the tail hole and
enters the contraction branch; heap_resize leaves end_address at 0x3000
(zero bytes removed), yet the source stores heap_resize's status code 0
into new_length, slashes header.size by the whole old region length
(wrapping to 0xFFFFFF0C) and writes the footer at 0x1FF8, below
start_address, instead of leaving size and footer unchanged. -/
theorem kfree_contraction_corrupts_block :
    stC.heap.end_address = stB.heap.end_address ∧
    getHeader stB.mem 0x20F4 = ⟨HEAP_MAGIC, true, 0xF4⟩ ∧
    getHeader stC.mem 0x20F4 = ⟨HEAP_MAGIC, false, 0xFFFFFF0C⟩ ∧
    alookup stC.mem.footers 0x1FF8 = some ⟨HEAP_MAGIC, 0x20F4⟩ ∧
    0x1FF8 < stC.heap.start_address := by
  decide

/-- C9: a non-growing kalloc_heap(0xE0) on stA (it succeeds with fuel 1,
so no grow-and-retry ran) followed by kfree_heap on the returned pointer
keeps the hole count at 1 but changes the total free bytes from 0xF0C to
0xFFFFFF0C: the round-trip property fails. -/
theorem round_trip_changes_free_bytes :
    stA.heap.free_list.length = 1 ∧
    totalFree stA = 0xF0C ∧
    kalloc_heap 1 0xE0 false stA = some (0x2100, stB) ∧
    stC = kfree_heap 0x2100 stB ∧
    stC.heap.free_list.length = 1 ∧
    totalFree stC = 0xFFFFFF0C := by
  decide


theorem alookup_cons {α : Type} (c : Nat × α) (t : List (Nat × α)) (b : Nat) :
    alookup (c :: t) b = if c.1 = b then some c.2 else alookup t b := by
  by_cases hc : c.1 = b
  · simp [alookup, List.find?, hc]
  · simp [alookup, List.find?, hc]

theorem alookup_filter {α : Type} (l : List (Nat × α)) (a b : Nat) (h : b ≠ a) :
    alookup (l.filter (fun q => q.1 ≠ a)) b = alookup l b := by
  induction l with
  | nil => rfl
  | cons c t ih =>
    rcases eq_or_ne c.1 a with hc | hc
    · have hcb : ¬ (c.1 = b) := fun e => h (e.symm.trans hc)
      rw [List.filter_cons, if_neg (by simp [hc]), ih, alookup_cons, if_neg hcb]
    · rw [List.filter_cons, if_pos (by simp [hc]), alookup_cons, alookup_cons, ih]

theorem alookup_awrite_self {α : Type} (l : List (Nat × α)) (a : Nat) (v : α) :
    alookup (awrite l a v) a = some v := by
  rw [awrite, alookup_cons, if_pos rfl]

theorem alookup_awrite_ne {α : Type} (l : List (Nat × α)) (a b : Nat) (v : α) (h : b ≠ a) :
    alookup (awrite l a v) b = alookup l b := by
  rw [awrite, alookup_cons, if_neg (fun e => h e.symm), alookup_filter l a b h]

theorem getHeader_writeHeader_self (m : Mem) (a : Nat) (v : Header) :
    getHeader (writeHeader m a v) a = v := by
  simp [getHeader, writeHeader, alookup_awrite_self]

theorem getHeader_writeHeader_ne (m : Mem) (a b : Nat) (v : Header) (h : b ≠ a) :
    getHeader (writeHeader m a v) b = getHeader m b := by
  simp [getHeader, writeHeader, alookup_awrite_ne _ _ _ _ h]

theorem add32_eq (a b : Nat) (h : a + b < SIZE_MOD) : add32 a b = a + b := by
  unfold add32 SIZE_MOD at *
  omega

theorem sub32_eq (a b : Nat) (h1 : b ≤ a) (h2 : a < SIZE_MOD) : sub32 a b = a - b := by
  unfold sub32 SIZE_MOD at *
  omega

theorem sub32_self (a : Nat) : sub32 a a = 0 := by
  unfold sub32 SIZE_MOD
  omega

theorem add32_lt (a b : Nat) : add32 a b < SIZE_MOD := by
  unfold add32 SIZE_MOD
  omega

theorem sub32_lt (a b : Nat) : sub32 a b < SIZE_MOD := by
  unfold sub32 SIZE_MOD
  omega

theorem toSSize_of_lt (n : Nat) (h : n < 2147483648) : toSSize n = (n : Int) := by
  unfold toSSize SIZE_MOD
  rw [Nat.mod_eq_of_lt (by omega)]
  simp [h]

theorem getD_mem_of_lt : ∀ (l : List Nat) (k : Nat), k < l.length → l.getD k 0 ∈ l := by
  intro l
  induction l with
  | nil =>
    intro k h
    simp at h
  | cons a t ih =>
    intro k h
    cases k with
    | zero => simp [List.getD]
    | succ n =>
      rw [List.getD_cons_succ]
      exact List.mem_cons_of_mem _ (ih n (by simpa using h))

theorem find_loop_sound (size : Nat) (m : Mem) :
    ∀ (l : List Nat) (i k : Nat), find_loop size true m l i = some k →
      i ≤ k ∧ k - i < l.length ∧
      toSSize size ≤ toSSize (getHeader m (l.getD (k - i) 0)).size := by
  intro l
  induction l with
  | nil =>
    intro i k h
    exact absurd h (by simp [find_loop])
  | cons a t ih =>
    intro i k h
    simp only [find_loop, if_true] at h
    have hrec : find_loop size true m t (i + 1) = some k →
        i ≤ k ∧ k - i < (a :: t).length ∧
        toSSize size ≤ toSSize (getHeader m ((a :: t).getD (k - i) 0)).size := by
      intro hh
      obtain ⟨h1, h2, h3⟩ := ih (i + 1) k hh
      refine ⟨by omega, by simp; omega, ?_⟩
      have hk : k - i = (k - (i + 1)) + 1 := by omega
      rw [hk, List.getD_cons_succ]
      exact h3
    split at h
    · split at h
      · rename_i hpar hfit
        obtain rfl : i = k := Option.some.inj h
        refine ⟨le_refl i, by simp, ?_⟩
        have hy : (add32 a sizeofHeader) % PAGE_SIZE < PAGE_SIZE :=
          Nat.mod_lt _ (by unfold PAGE_SIZE; omega)
        have hy2 : (((add32 a sizeofHeader) % PAGE_SIZE : Nat) : Int) < ((PAGE_SIZE : Nat) : Int) := by
          exact_mod_cast hy
        simp only [Nat.sub_self, List.getD_cons_zero]
        omega
      · exact hrec h
    · split at h
      · rename_i hpar hfit
        obtain rfl : i = k := Option.some.inj h
        refine ⟨le_refl i, by simp, ?_⟩
        simp only [Nat.sub_self, List.getD_cons_zero]
        omega
      · exact hrec h

theorem find_smallest_hole_sound (size : Nat) (st : State)
    (h : find_smallest_hole size true st ≠ -1) :
    ∃ k : Nat, find_smallest_hole size true st = (k : Int) ∧
      k < st.heap.free_list.length ∧
      toSSize size ≤ toSSize (getHeader st.mem (sorted_array_lookup st.heap.free_list k)).size := by
  cases hf : find_loop size true st.mem st.heap.free_list 0 with
  | none =>
    exfalso
    apply h
    unfold find_smallest_hole
    rw [hf]
  | some i =>
    obtain ⟨h1, h2, h3⟩ := find_loop_sound size st.mem st.heap.free_list 0 i hf
    refine ⟨i, ?_, by simpa using h2, ?_⟩
    · unfold find_smallest_hole
      rw [hf]
    · simpa [sorted_array_lookup] using h3

theorem getHeader_writeFooter (m : Mem) (x : Nat) (w : Footer) (a : Nat) :
    getHeader (writeFooter m x w) a = getHeader m a := rfl

theorem footers_writeHeader (m : Mem) (a : Nat) (v : Header) :
    (writeHeader m a v).footers = m.footers := rfl

theorem footers_writeFooter (m : Mem) (a : Nat) (v : Footer) :
    (writeFooter m a v).footers = awrite m.footers a v := rfl

theorem mem_sorted_array_insert (m : Mem) (x b : Nat) :
    ∀ l : List Nat, b ∈ sorted_array_insert m x l → b = x ∨ b ∈ l := by
  intro l
  induction l with
  | nil =>
    intro h
    simp [sorted_array_insert] at h
    exact Or.inl h
  | cons c t ih =>
    intro h
    rw [sorted_array_insert] at h
    split at h
    · rcases List.mem_cons.mp h with h | h
      · exact Or.inr (List.mem_cons.mpr (Or.inl h))
      · rcases ih h with h | h
        · exact Or.inl h
        · exact Or.inr (List.mem_cons.mpr (Or.inr h))
    · rcases List.mem_cons.mp h with h | h
      · exact Or.inl h
      · exact Or.inr h

theorem heap_resize_grow (arg : Nat) (hp : Heap)
    (h1 : hp.end_address - hp.start_address < arg)
    (h2 : hp.start_address + arg + 4096 < 4294967296)
    (hS : hp.start_address ≤ hp.end_address)
    (hE : hp.end_address < 2147483648) :
    (heap_resize arg hp).2.start_address = hp.start_address ∧
    (heap_resize arg hp).2.max_address = hp.max_address ∧
    (heap_resize arg hp).2.free_list = hp.free_list ∧
    hp.end_address ≤ (heap_resize arg hp).2.end_address ∧
    ((heap_resize arg hp).2.end_address = hp.end_address ∨
      (heap_resize arg hp).2.end_address ≤ hp.max_address) := by
  simp only [heap_resize]
  unfold align add32 sub32 SIZE_MOD PAGE_SIZE
  split_ifs <;> dsimp only <;> refine ⟨rfl, rfl, rfl, by omega, by omega⟩

theorem getD_default_of_le : ∀ (l : List Nat) (k : Nat), l.length ≤ k → l.getD k 0 = 0 := by
  intro l
  induction l with
  | nil =>
    intro k h
    simp [List.getD]
  | cons a t ih =>
    intro k h
    cases k with
    | zero => simp at h
    | succ n =>
      rw [List.getD_cons_succ]
      exact ih n (by simpa using h)

theorem WF_growStep (ns : Nat) (st : State) (h : WF st)
    (hns1 : 0 < ns) (hns2 : ns ≤ 1073741844) : WF (growStep ns st) := by
  obtain ⟨h1, h2, h3, h4, h5⟩ := h
  have hE : st.heap.end_address < 2147483648 := lt_of_le_of_lt h3 h4
  have hol : sub32 st.heap.end_address st.heap.start_address
      = st.heap.end_address - st.heap.start_address :=
    sub32_eq _ _ h2 (by unfold SIZE_MOD; omega)
  have harg : add32 (sub32 st.heap.end_address st.heap.start_address) ns
      = st.heap.end_address - st.heap.start_address + ns := by
    rw [hol]
    exact add32_eq _ _ (by unfold SIZE_MOD; omega)
  obtain ⟨hr1, hr2, hr3, hr4, hr5⟩ :=
    heap_resize_grow (st.heap.end_address - st.heap.start_address + ns) st.heap
      (by omega) (by omega) h2 hE
  have hE1 : (heap_resize (st.heap.end_address - st.heap.start_address + ns) st.heap).2.end_address
      < 2147483648 := by
    rcases hr5 with hh | hh <;> omega
  have hnl : sub32 (heap_resize (st.heap.end_address - st.heap.start_address + ns) st.heap).2.end_address
      st.heap.start_address
      = (heap_resize (st.heap.end_address - st.heap.start_address + ns) st.heap).2.end_address
        - st.heap.start_address :=
    sub32_eq _ _ (le_trans h2 hr4) (by unfold SIZE_MOD; omega)
  have hdl : sub32
      ((heap_resize (st.heap.end_address - st.heap.start_address + ns) st.heap).2.end_address
        - st.heap.start_address)
      (st.heap.end_address - st.heap.start_address)
      = (heap_resize (st.heap.end_address - st.heap.start_address + ns) st.heap).2.end_address
        - st.heap.end_address := by
    rw [sub32_eq _ _ (by omega) (by unfold SIZE_MOD; omega)]
    omega
  simp only [growStep]
  rw [harg, hr1, hnl, hol, hdl, hr3]
  split_ifs with hidx
  · unfold WF
    dsimp only
    refine ⟨by omega, by omega, by omega, by omega, ?_⟩
    intro a ha
    rcases mem_sorted_array_insert _ _ _ _ ha with rfl | hmem
    · refine ⟨by omega, ?_⟩
      rw [getHeader_writeFooter, getHeader_writeHeader_self]
      dsimp only
      omega
    · refine ⟨(h5 a hmem).1, ?_⟩
      by_cases hae : a = st.heap.end_address
      · subst hae
        rw [getHeader_writeFooter, getHeader_writeHeader_self]
        dsimp only
        omega
      · rw [getHeader_writeFooter, getHeader_writeHeader_ne _ _ _ _ hae]
        exact le_trans (h5 a hmem).2 hr4
  · unfold WF
    dsimp only
    rw [hr3]
    refine ⟨by omega, by omega, by omega, by omega, ?_⟩
    have hsa : sorted_array_lookup st.heap.free_list (endmost_loop st.heap.free_list 0 NEG1 0).1
        ∈ st.heap.free_list ∨
        sorted_array_lookup st.heap.free_list (endmost_loop st.heap.free_list 0 NEG1 0).1 = 0 := by
      by_cases hlt : (endmost_loop st.heap.free_list 0 NEG1 0).1 < st.heap.free_list.length
      · exact Or.inl (getD_mem_of_lt _ _ hlt)
      · exact Or.inr (getD_default_of_le _ _ (by omega))
    intro a ha
    refine ⟨(h5 a ha).1, ?_⟩
    rcases hsa with hmemha | hzero
    · obtain ⟨hx1, hx2⟩ := h5 _ hmemha
      have hsz : add32 (getHeader st.mem (sorted_array_lookup st.heap.free_list
            (endmost_loop st.heap.free_list 0 NEG1 0).1)).size
          ((heap_resize (st.heap.end_address - st.heap.start_address + ns) st.heap).2.end_address
            - st.heap.end_address)
          = (getHeader st.mem (sorted_array_lookup st.heap.free_list
              (endmost_loop st.heap.free_list 0 NEG1 0).1)).size
            + ((heap_resize (st.heap.end_address - st.heap.start_address + ns) st.heap).2.end_address
              - st.heap.end_address) := by
        apply add32_eq
        unfold SIZE_MOD
        omega
      by_cases hae : a = sorted_array_lookup st.heap.free_list
          (endmost_loop st.heap.free_list 0 NEG1 0).1
      · subst hae
        rw [getHeader_writeFooter, getHeader_writeHeader_self]
        dsimp only
        rw [hsz]
        omega
      · rw [getHeader_writeFooter, getHeader_writeHeader_ne _ _ _ _ hae]
        exact le_trans (h5 a ha).2 hr4
    · have hane : a ≠ sorted_array_lookup st.heap.free_list
          (endmost_loop st.heap.free_list 0 NEG1 0).1 := by
        have := (h5 a ha).1
        omega
      rw [getHeader_writeFooter, getHeader_writeHeader_ne _ _ _ _ hane]
      exact le_trans (h5 a ha).2 hr4

theorem footer_addr_ne (f ohs new_size : Nat)
    (hd : 0 < sub32 ohs new_size) :
    sub32 (sub32 (add32 (add32 f sizeofFooter) ohs) new_size) sizeofFooter ≠ f := by
  unfold add32 sub32 SIZE_MOD sizeofFooter at *
  intro he
  omega

theorem kallocFinish_footer (size new_size ohs pos : Nat) (st : State)
    (hpos : pos ≤ 2147487744) (hsizeb : size ≤ 1073741843) :
    (kallocFinish size new_size ohs pos st).1 = pos + sizeofHeader ∧
    alookup (kallocFinish size new_size ohs pos st).2.mem.footers (pos + sizeofHeader + size)
      = some ⟨HEAP_MAGIC, pos⟩ := by
  have h1 : add32 pos sizeofHeader = pos + sizeofHeader :=
    add32_eq _ _ (by unfold sizeofHeader SIZE_MOD; omega)
  have hf : add32 (add32 pos sizeofHeader) size = pos + sizeofHeader + size := by
    rw [h1]
    exact add32_eq _ _ (by unfold sizeofHeader SIZE_MOD; omega)
  simp only [kallocFinish]
  rw [hf]
  split_ifs with hd hfo
  · refine ⟨h1, ?_⟩
    dsimp only
    simp only [footers_writeFooter, footers_writeHeader]
    rw [alookup_awrite_ne _ _ _ _
      (Ne.symm (footer_addr_ne _ _ _ hd))]
    exact alookup_awrite_self _ _ _
  · refine ⟨h1, ?_⟩
    dsimp only
    simp only [footers_writeFooter, footers_writeHeader]
    exact alookup_awrite_self _ _ _
  · refine ⟨h1, ?_⟩
    dsimp only
    simp only [footers_writeFooter, footers_writeHeader]
    exact alookup_awrite_self _ _ _

theorem kallocFinish_goal (size0 size new_size ohs pos : Nat) (st : State)
    (hpos : pos ≤ 2147487744) (hsizeb : size ≤ 1073741843)
    (hs0 : size0 ≤ size)
    (hal : (pos + sizeofHeader) % PAGE_SIZE = 0) :
    (kallocFinish size new_size ohs pos st).1 % PAGE_SIZE = 0 ∧
    ∃ sz, size0 ≤ sz ∧
      alookup (kallocFinish size new_size ohs pos st).2.mem.footers
          ((kallocFinish size new_size ohs pos st).1 + sz)
        = some ⟨HEAP_MAGIC, sub32 (kallocFinish size new_size ohs pos st).1 sizeofHeader⟩ := by
  obtain ⟨hw1, hw2⟩ := kallocFinish_footer size new_size ohs pos st hpos hsizeb
  rw [hw1]
  refine ⟨hal, size, hs0, ?_⟩
  have hsub : sub32 (pos + sizeofHeader) sizeofHeader = pos := by
    rw [sub32_eq _ _ (by omega) (by unfold sizeofHeader SIZE_MOD at *; omega)]
    omega
  rw [hsub]
  exact hw2

theorem kallocBody_aligned (size0 ns : Nat) (st : State) (k : Nat)
    (hWF : WF st) (hsz : size0 ≤ 1073741824)
    (hns : ns = add32 (add32 size0 sizeofHeader) sizeofFooter)
    (hk : k < st.heap.free_list.length)
    (hfit : toSSize ns ≤ toSSize
      (getHeader st.mem (sorted_array_lookup st.heap.free_list k)).size) :
    (kallocBody size0 ns true k st).1 % PAGE_SIZE = 0 ∧
    ∃ sz, size0 ≤ sz ∧
      alookup (kallocBody size0 ns true k st).2.mem.footers
          ((kallocBody size0 ns true k st).1 + sz)
        = some ⟨HEAP_MAGIC, sub32 (kallocBody size0 ns true k st).1 sizeofHeader⟩ := by
  obtain ⟨h1, h2, h3, h4, h5⟩ := hWF
  have hmem : sorted_array_lookup st.heap.free_list k ∈ st.heap.free_list := by
    unfold sorted_array_lookup
    exact getD_mem_of_lt _ _ hk
  obtain ⟨hp1, hp2⟩ := h5 _ hmem
  have hE : st.heap.end_address < 2147483648 := lt_of_le_of_lt h3 h4
  have hposlt : sorted_array_lookup st.heap.free_list k < 2147483648 := by omega
  have hsize31 : (getHeader st.mem (sorted_array_lookup st.heap.free_list k)).size
      < 2147483648 := by omega
  have e1 : add32 size0 sizeofHeader = size0 + sizeofHeader :=
    add32_eq _ _ (by unfold sizeofHeader SIZE_MOD; omega)
  have hns2 : ns = size0 + sizeofHeader + sizeofFooter := by
    rw [hns, e1]
    exact add32_eq _ _ (by unfold sizeofHeader sizeofFooter SIZE_MOD; omega)
  unfold sizeofHeader sizeofFooter at hns2
  have hfitn : ns ≤ (getHeader st.mem (sorted_array_lookup st.heap.free_list k)).size := by
    rw [toSSize_of_lt _ (by omega), toSSize_of_lt _ (by omega)] at hfit
    exact_mod_cast hfit
  have habs : sub32 (getHeader st.mem (sorted_array_lookup st.heap.free_list k)).size ns
      = (getHeader st.mem (sorted_array_lookup st.heap.free_list k)).size - ns :=
    sub32_eq _ _ hfitn (by unfold SIZE_MOD; omega)
  have hmod : sorted_array_lookup st.heap.free_list k % SIZE_MOD
      = sorted_array_lookup st.heap.free_list k :=
    Nat.mod_eq_of_lt (by unfold SIZE_MOD; omega)
  have e3 : add32 (sorted_array_lookup st.heap.free_list k) PAGE_SIZE
      = sorted_array_lookup st.heap.free_list k + PAGE_SIZE :=
    add32_eq _ _ (by unfold PAGE_SIZE SIZE_MOD; omega)
  have e4 : sub32 (sorted_array_lookup st.heap.free_list k + PAGE_SIZE)
        (sorted_array_lookup st.heap.free_list k % PAGE_SIZE)
      = sorted_array_lookup st.heap.free_list k + PAGE_SIZE
        - sorted_array_lookup st.heap.free_list k % PAGE_SIZE :=
    sub32_eq _ _ (by unfold PAGE_SIZE; omega) (by unfold PAGE_SIZE SIZE_MOD; omega)
  have e5 : sub32 (sorted_array_lookup st.heap.free_list k + PAGE_SIZE
        - sorted_array_lookup st.heap.free_list k % PAGE_SIZE) sizeofHeader
      = sorted_array_lookup st.heap.free_list k + PAGE_SIZE
        - sorted_array_lookup st.heap.free_list k % PAGE_SIZE - sizeofHeader :=
    sub32_eq _ _ (by unfold PAGE_SIZE sizeofHeader; omega)
      (by unfold PAGE_SIZE SIZE_MOD; omega)
  have habs2 : add32 size0 ((getHeader st.mem (sorted_array_lookup st.heap.free_list k)).size - ns)
      = size0 + ((getHeader st.mem (sorted_array_lookup st.heap.free_list k)).size - ns) :=
    add32_eq _ _ (by unfold SIZE_MOD; omega)
  simp only [kallocBody]
  rw [habs, hmod, e3, e4, e5, habs2]
  split_ifs with hc hab hab2
  · refine kallocFinish_goal size0 _ _ _ _ _ ?_ ?_ ?_ ?_
    · unfold PAGE_SIZE sizeofHeader
      omega
    · unfold sizeofHeader sizeofFooter at *
      omega
    · omega
    · unfold PAGE_SIZE sizeofHeader
      omega
  · refine kallocFinish_goal size0 _ _ _ _ _ ?_ ?_ ?_ ?_
    · unfold PAGE_SIZE sizeofHeader
      omega
    · omega
    · omega
    · unfold PAGE_SIZE sizeofHeader
      omega
  · exact absurd ⟨trivial, by unfold PAGE_SIZE at *; omega⟩ hc
  · exact absurd ⟨trivial, by unfold PAGE_SIZE at *; omega⟩ hc

/-- C6: every successful page-aligned allocation on a well-formed heap
returns a page-aligned pointer, and the block footer it writes sits at
least size bytes past the returned pointer (at p + sz for the block's
internal payload size sz ≥ size) and points back to the block header at
p - sizeof(struct header). -/
theorem kalloc_heap_page_aligned (size0 : Nat) (hsz : size0 ≤ 1073741824) :
    ∀ (fuel : Nat) (st : State) (p : Nat) (st2 : State), WF st →
      kalloc_heap fuel size0 true st = some (p, st2) →
      p % PAGE_SIZE = 0 ∧
      ∃ sz, size0 ≤ sz ∧
        alookup st2.mem.footers (p + sz) = some ⟨HEAP_MAGIC, sub32 p sizeofHeader⟩ := by
  intro fuel
  induction fuel with
  | zero =>
    intro st p st2 _ h
    exact absurd h (by simp [kalloc_heap])
  | succ n ih =>
    intro st p st2 hWF h
    have hns : add32 (add32 size0 sizeofHeader) sizeofFooter = size0 + 20 := by
      have e1 : add32 size0 sizeofHeader = size0 + sizeofHeader :=
        add32_eq _ _ (by unfold sizeofHeader SIZE_MOD; omega)
      rw [e1, add32_eq _ _ (by unfold sizeofHeader sizeofFooter SIZE_MOD; omega)]
      unfold sizeofHeader sizeofFooter
      omega
    simp only [kalloc_heap] at h
    by_cases hfind : find_smallest_hole (add32 (add32 size0 sizeofHeader) sizeofFooter) true st
        = -1
    · rw [if_pos hfind] at h
      refine ih _ p st2 (WF_growStep _ _ hWF ?_ ?_) h
      · omega
      · omega
    · rw [if_neg hfind] at h
      obtain ⟨k, hk1, hk2, hk3⟩ :=
        find_smallest_hole_sound (add32 (add32 size0 sizeofHeader) sizeofFooter) st hfind
      rw [hk1] at h
      simp only [Int.toNat_natCast] at h
      have hpair : kallocBody size0 (add32 (add32 size0 sizeofHeader) sizeofFooter) true k st
          = (p, st2) := Option.some.inj h
      have hp : p = (kallocBody size0 (add32 (add32 size0 sizeofHeader) sizeofFooter)
          true k st).1 := by rw [hpair]
      have hst2 : st2 = (kallocBody size0 (add32 (add32 size0 sizeofHeader) sizeofFooter)
          true k st).2 := by rw [hpair]
      rw [hp, hst2]
      exact kallocBody_aligned size0 _ st k ⟨hWF.1, hWF.2.1, hWF.2.2.1, hWF.2.2.2.1,
        hWF.2.2.2.2⟩ hsz rfl hk2 hk3

/-- witness for C6 at a concrete input: on st0c the page-aligned request
of 0xE0 bytes succeeds with pointer 0x3000, which is page-aligned, and
the block footer lies 0xE0 bytes past it. -/
theorem kalloc_heap_page_aligned_witness :
    (0xE0 : Nat) ≤ 1073741824 ∧ WF st0c ∧
    ((0x3000 : Nat) % PAGE_SIZE = 0 ∧
      ∃ sz, 0xE0 ≤ sz ∧ alookup stW.mem.footers (0x3000 + sz)
        = some ⟨HEAP_MAGIC, sub32 0x3000 sizeofHeader⟩) :=
  ⟨by decide, by decide,
    kalloc_heap_page_aligned 0xE0 (by decide) 2 st0c 0x3000 stW (by decide) (by decide)⟩

/-- C10: heap_create places the data region start on a page boundary even
when the caller-supplied start is not aligned, and at or above the end of
the metadata (heap struct and free-list storage) placed at start, so the
initial hole cannot overlap the allocator's own bookkeeping. -/
theorem heap_create_start_aligned (start end_ max : Nat)
    (h : start + sizeofSortedArray + sizeofPtr * HEAP_FREE_LIST_SIZE + PAGE_SIZE < SIZE_MOD) :
    (heap_create start end_ max).heap.start_address % PAGE_SIZE = 0 ∧
    start + sizeofSortedArray + sizeofPtr * HEAP_FREE_LIST_SIZE
      ≤ (heap_create start end_ max).heap.start_address := by
  have hh : (heap_create start end_ max).heap.start_address
      = (if align (start + sizeofSortedArray + sizeofPtr * HEAP_FREE_LIST_SIZE)
            ≠ start + sizeofSortedArray + sizeofPtr * HEAP_FREE_LIST_SIZE then
          add32 (align (start + sizeofSortedArray + sizeofPtr * HEAP_FREE_LIST_SIZE)) PAGE_SIZE
        else start + sizeofSortedArray + sizeofPtr * HEAP_FREE_LIST_SIZE) := rfl
  rw [hh]
  unfold align add32 sizeofSortedArray sizeofPtr HEAP_FREE_LIST_SIZE PAGE_SIZE SIZE_MOD at *
  split_ifs <;> constructor <;> omega

/-- witness for C10 at a concrete input: heap_create(0x1000, 0x3000,
0x10000) yields start_address 0x2000, page-aligned and past the metadata
at 0x1000. -/
theorem heap_create_start_aligned_witness :
    0x1000 + sizeofSortedArray + sizeofPtr * HEAP_FREE_LIST_SIZE + PAGE_SIZE < SIZE_MOD ∧
    ((heap_create 0x1000 0x3000 0x10000).heap.start_address % PAGE_SIZE = 0 ∧
      0x1000 + sizeofSortedArray + sizeofPtr * HEAP_FREE_LIST_SIZE
        ≤ (heap_create 0x1000 0x3000 0x10000).heap.start_address) :=
  ⟨by decide, heap_create_start_aligned 0x1000 0x3000 0x10000 (by decide)⟩
